import Mathlib

/-!
Verification of the lameflow incremental-computation engine.

This file gives a shallow embedding of the core of `lameflow`:

* `src/lameflow/node.py` — the `Node` state machine (states, cached value,
  argument reference counts, dependent back-edges), cascading invalidation,
  the lazy `value` getter/setter, the `NodeCallStack`, and the memoizing
  registry (`Node.__new__` together with the `@nodeclass` decorator).
* `src/lameflow/_collections.py` — `ObservableList` with its mutation
  notifications and extended-slice index arithmetic.

Python objects are identified by numeric ids.  The heap of per-node mutable
attributes is a `Sys` record of total functions from ids; exceptions are
modelled with `Except`, carrying the mutated system state at raise time
(Python mutations performed before a raise persist).  Recursion through the
graph is bounded by an explicit fuel parameter; every run in this file uses
fuel that is ample for the configuration at hand, and running out of fuel is
a distinguished error that never occurs in the proved runs.
-/

namespace Lameflow

/-- Identity of a Python `Node` object (object identity, not key). -/
abbrev NodeId := Nat

/-- Model of a Python value held in `Node._value`: `none` is Python `None`,
`some k` an integer.  Python `==` is equality on this type. -/
abbrev Val := Option Int

/-- `Node.State` (node.py lines 95–99). -/
inductive State
  | invalid
  | pending
  | valid
deriving DecidableEq

/-- Events fired through the `event.py` listener machinery, plus a
`computed` marker recording that `compute_value` returned inside the
`value` getter (used to count and order recomputations). -/
inductive Event
  | create (n : NodeId)
  | stateChange (n : NodeId) (old new : State)
  | valueChange (n : NodeId) (old new : Val)
  | argAdd (n arg : NodeId)
  | argRemove (n arg : NodeId)
  | computed (n : NodeId)
deriving DecidableEq

/-- Exceptions raised by the node machinery.  `depCycle` is
`DependencyCycleError` with its `trace`; `popEmpty`/`popMismatch` are the
`IndexError`/`TypeError` raised by `NodeCallStack._pop`; `keyError` is a
Python `KeyError`; `fuel` marks recursion-budget exhaustion of the model
(never reached in the runs below). -/
inductive Err
  | depCycle (trace : List NodeId)
  | popEmpty
  | popMismatch
  | keyError
  | fuel
deriving DecidableEq

/-- Pointwise update of a one-argument attribute table. -/
def upd {α : Type} (f : Nat → α) (i : Nat) (v : α) : Nat → α :=
  fun j => if j = i then v else f j

/-- Pointwise update of a two-argument attribute table. -/
def upd2 {α : Type} (f : Nat → Nat → α) (i j : Nat) (v : α) : Nat → Nat → α :=
  fun a b => if a = i ∧ b = j then v else f a b

/-- Mutable state of the node graph: for each node its `_state`, `_value`,
`_arg_refcount` (absent key = `none`; counts are Python ints), and
`_dependents` (a set, kept as a duplicate-free list in insertion order);
plus the global `NodeCallStack.stack` (bottom first, as in Python) and the
global log of fired events. -/
structure Sys where
  st : NodeId → State
  val : NodeId → Val
  refcount : NodeId → NodeId → Option Int
  dependents : NodeId → List NodeId
  stack : List NodeId
  events : List Event

/-- Static description of a node's `compute_value`: the nodes whose `value`
it reads, in order, and the function of those values it returns.  (Concrete
subclasses such as `FuncNode.compute_value` read the values of their
argument nodes in order and combine them.) -/
structure ComputeSpec where
  reads : List NodeId
  fn : List Val → Val

/-- `NodeCallStack._push` (node.py lines 302–308).  The set `_nodes` always
holds exactly the members of `stack`, so membership is tested on the list.
On a hit, `DependencyCycleError(cls.stack + [node])` is raised. -/
def push (s : Sys) (n : NodeId) : Except (Err × Sys) Sys :=
  if n ∈ s.stack then .error (.depCycle (s.stack ++ [n]), s)
  else .ok { s with stack := s.stack ++ [n] }

/-- `NodeCallStack._pop` (node.py lines 310–319). -/
def pop (s : Sys) (n : NodeId) : Except (Err × Sys) Sys :=
  match s.stack.getLast? with
  | none => .error (.popEmpty, s)
  | some top =>
    if top = n then .ok { s with stack := s.stack.dropLast }
    else .error (.popMismatch, s)

/-- The `state` property setter (node.py lines 216–220): store the new
state and fire a `NodeStateEvent` unconditionally. -/
def setState (s : Sys) (n : NodeId) (new : State) : Sys :=
  { s with st := upd s.st n new
         , events := s.events ++ [Event.stateChange n (s.st n) new] }

mutual

/-- `Node.invalidate` (node.py lines 242–249): a no-op unless the state is
`VALID`; otherwise, inside a `_NodeStackFrame` (pushed before the body,
popped even when the body raises), set the state to `INVALID` and invalidate
every dependent in turn. -/
def invalidate : Nat → Sys → NodeId → Except (Err × Sys) Sys
  | 0, s, _ => .error (.fuel, s)
  | fuel + 1, s, n =>
    if s.st n = State.valid then
      match push s n with
      | .error es => .error es
      | .ok s1 =>
        let s2 := setState s1 n State.invalid
        match invalidateAll fuel s2 (s2.dependents n) with
        | .ok s3 => pop s3 n
        | .error (e, s3) =>
          match pop s3 n with
          | .ok s4 => .error (e, s4)
          | .error es => .error es
    else .ok s

/-- The `for dependent in self._dependents: dependent.invalidate()` loop in
`Node.invalidate`, threading the mutated state left to right. -/
def invalidateAll : Nat → Sys → List NodeId → Except (Err × Sys) Sys
  | 0, s, _ => .error (.fuel, s)
  | _ + 1, s, [] => .ok s
  | fuel + 1, s, d :: ds =>
    match invalidate fuel s d with
    | .ok s' => invalidateAll fuel s' ds
    | .error es => .error es

end

/-- The `value` property setter (node.py lines 271–282): return immediately
when the new value equals the cached `_value`; otherwise invalidate self
(cascading), store the new value, fire a `NodeValueEvent`, and set the state
to `VALID`. -/
def setValue (fuel : Nat) (s : Sys) (n : NodeId) (v : Val) : Except (Err × Sys) Sys :=
  if s.val n = v then .ok s
  else
    match invalidate fuel s n with
    | .error es => .error es
    | .ok s1 =>
      let s2 := { s1 with val := upd s1.val n v
                        , events := s1.events ++ [Event.valueChange n (s1.val n) v] }
      .ok (setState s2 n State.valid)

/-- Append the marker that `compute_value` returned for node `n`. -/
def logComputed (s : Sys) (n : NodeId) : Sys :=
  { s with events := s.events ++ [Event.computed n] }

mutual

/-- The `value` property getter (node.py lines 259–269): if `VALID`, return
the cached value.  Otherwise, inside a `_NodeStackFrame` (popped even when
the body raises), set the state to `PENDING`, run `compute_value` (which
reads the values of other nodes, recursively), assign the result through the
`value` setter, and return `_value`. -/
def getValue : (NodeId → ComputeSpec) → Nat → Sys → NodeId → Except (Err × Sys) (Val × Sys)
  | _, 0, s, _ => .error (.fuel, s)
  | env, fuel + 1, s, n =>
    if s.st n = State.valid then .ok (s.val n, s)
    else
      match push s n with
      | .error es => .error es
      | .ok s1 =>
        let s2 := setState s1 n State.pending
        match readAll env fuel s2 (env n).reads with
        | .error (e, s3) =>
          match pop s3 n with
          | .ok s4 => .error (e, s4)
          | .error es => .error es
        | .ok (vs, s3) =>
          let s4 := logComputed s3 n
          match setValue fuel s4 n ((env n).fn vs) with
          | .error (e, s5) =>
            match pop s5 n with
            | .ok s6 => .error (e, s6)
            | .error es => .error es
          | .ok s5 =>
            match pop s5 n with
            | .ok s6 => .ok (s6.val n, s6)
            | .error es => .error es

/-- Evaluation of the node reads performed by `compute_value`, in order,
each through the `value` getter. -/
def readAll : (NodeId → ComputeSpec) → Nat → Sys → List NodeId → Except (Err × Sys) (List Val × Sys)
  | _, 0, s, _ => .error (.fuel, s)
  | _, _ + 1, s, [] => .ok ([], s)
  | env, fuel + 1, s, a :: as =>
    match getValue env fuel s a with
    | .error es => .error es
    | .ok (v, s') =>
      match readAll env fuel s' as with
      | .error es => .error es
      | .ok (vs, s'') => .ok (v :: vs, s'')

end

/-- `Node._on_arg_add` (node.py lines 129–136): invalidate self, then bump
the refcount for `arg`; on a `KeyError` (no entry yet) register self in
`arg._dependents` and start the count at 1; finally fire `NodeArgAddEvent`. -/
def onArgAdd (fuel : Nat) (s : Sys) (n arg : NodeId) : Except (Err × Sys) Sys :=
  match invalidate fuel s n with
  | .error es => .error es
  | .ok s1 =>
    let s2 :=
      match s1.refcount n arg with
      | some k => { s1 with refcount := upd2 s1.refcount n arg (some (k + 1)) }
      | none =>
        { s1 with refcount := upd2 s1.refcount n arg (some 1)
                , dependents := upd s1.dependents arg (s1.dependents arg ++ [n]) }
    .ok { s2 with events := s2.events ++ [Event.argAdd n arg] }

/-- `Node._on_arg_remove` (node.py lines 138–144): invalidate self, then
decrement the refcount for `arg` (a `KeyError` if absent); when it reaches
zero, delete the entry and remove self from `arg._dependents` (a `KeyError`
if absent from the set — the entry is deleted first, as in the source);
finally fire `NodeArgRemoveEvent`. -/
def onArgRemove (fuel : Nat) (s : Sys) (n arg : NodeId) : Except (Err × Sys) Sys :=
  match invalidate fuel s n with
  | .error es => .error es
  | .ok s1 =>
    match s1.refcount n arg with
    | none => .error (.keyError, s1)
    | some k =>
      if k - 1 = 0 then
        let s2 := { s1 with refcount := upd2 s1.refcount n arg none }
        if n ∈ s2.dependents arg then
          let s3 := { s2 with dependents := upd s2.dependents arg ((s2.dependents arg).erase n) }
          .ok { s3 with events := s3.events ++ [Event.argRemove n arg] }
        else .error (.keyError, s2)
      else
        let s2 := { s1 with refcount := upd2 s1.refcount n arg (some (k - 1)) }
        .ok { s2 with events := s2.events ++ [Event.argRemove n arg] }

/-- `Node._init` (node.py lines 183–205): a freshly constructed node has
state `INVALID`, cached value `None`, no argument refcounts and no
dependents, and a `NodeCreateEvent` is fired. -/
def initNode (s : Sys) (n : NodeId) : Sys :=
  { s with st := upd s.st n State.invalid
         , val := upd s.val n none
         , refcount := fun a b => if a = n then none else s.refcount a b
         , dependents := upd s.dependents n []
         , events := s.events ++ [Event.create n] }

/-- The node ids recorded by `computed` markers, in firing order. -/
def computedEvents : List Event → List NodeId
  | [] => []
  | Event.computed n :: es => n :: computedEvents es
  | _ :: es => computedEvents es

/-- The `NodeValueEvent`s in an event log. -/
def valueEvents : List Event → List Event
  | [] => []
  | Event.valueChange n o v :: es => Event.valueChange n o v :: valueEvents es
  | _ :: es => valueEvents es

/-- System state reached by a run that returns a value. -/
def sysOfRun (r : Except (Err × Sys) (Val × Sys)) : Sys :=
  match r with
  | .ok (_, s) => s
  | .error (_, s) => s

/-- System state reached by a run that returns no value. -/
def sysOfStep (r : Except (Err × Sys) Sys) : Sys :=
  match r with
  | .ok s => s
  | .error (_, s) => s

/-- Dependency-cycle trace carried by a failing run (`[]` if none). -/
def traceOfRun (r : Except (Err × Sys) (Val × Sys)) : List NodeId :=
  match r with
  | .error (Err.depCycle t, _) => t
  | _ => []


/-! ### Scenario configurations used by the theorems -/

/-- A system in which every node is freshly allocated: all states
`INVALID`, all cached values `None`, no edges, empty call stack. -/
def freshSys : Sys :=
  { st := fun _ => State.invalid
  , val := fun _ => none
  , refcount := fun _ _ => none
  , dependents := fun _ => []
  , stack := []
  , events := [] }

/-- Compute functions for a chain A(=0) → B(=1) → C(=2): A reads B and
applies `f`, B reads C and applies `g`, C is a leaf computing `c`. -/
def chainEnv (f g : Val → Val) (c : Val) : NodeId → ComputeSpec := fun n =>
  if n = 0 then ⟨[1], fun vs => f (vs.headD none)⟩
  else if n = 1 then ⟨[2], fun vs => g (vs.headD none)⟩
  else ⟨[], fun _ => c⟩

/-- Dependency state of the chain A → B → C after all three are `VALID`
with cached values `va`, `vb`, `vc`: B's refcount for C and A's for B are 1,
C's dependents are `[B]` and B's are `[A]`. -/
def chainSys (va vb vc : Val) : Sys :=
  { st := fun _ => State.valid
  , val := fun n => if n = 0 then va else if n = 1 then vb else vc
  , refcount := fun n p =>
      if n = 0 ∧ p = 1 then some 1 else if n = 1 ∧ p = 2 then some 1 else none
  , dependents := fun p => if p = 1 then [0] else if p = 2 then [1] else []
  , stack := []
  , events := [] }

/-- A node class whose `compute_value` reads the value of node 0 itself. -/
def selfEnv (f : List Val → Val) : NodeId → ComputeSpec := fun _ => ⟨[0], f⟩

/-- Node 0 reads node 1, whose computation reads node 0 back. -/
def viaEnv (f g : List Val → Val) : NodeId → ComputeSpec :=
  fun n => if n = 0 then ⟨[1], f⟩ else ⟨[0], g⟩

/-- Concrete instance of `selfEnv` for closed counterexamples. -/
def cycEnv : NodeId → ComputeSpec := fun _ => ⟨[0], fun _ => none⟩

/-- System state after the failing self-referential evaluation of node 0. -/
def cycRes : Sys := sysOfRun (getValue cycEnv 8 freshSys 0)

/-- System state after the failing self-referential evaluation, for an
arbitrary compute function. -/
def c4res (f : List Val → Val) : Sys := sysOfRun (getValue (selfEnv f) 8 freshSys 0)

/-- System state after the failing evaluation through an intermediary. -/
def c4resVia (f g : List Val → Val) : Sys := sysOfRun (getValue (viaEnv f g) 8 freshSys 0)

/-- A leaf node class computing the constant `c`. -/
def c3env (c : Val) : NodeId → ComputeSpec := fun _ => ⟨[], fun _ => c⟩

/-- Node 0 `INVALID` with cached value `c` (as after an invalidation). -/
def c3sys (c : Val) : Sys := { freshSys with val := upd freshSys.val 0 c }

/-- System state after re-reading node 0's value in `c3sys c`. -/
def c3res (c : Val) : Sys := sysOfRun (getValue (c3env c) 8 (c3sys c) 0)

/-- The refcounting invariant of the dependency graph: every
`_arg_refcount` entry is positive, and a node appears in a parent's
`_dependents` exactly once if it holds a refcount entry for that parent,
never otherwise. -/
def RefInv (s : Sys) : Prop :=
  (∀ n p k, s.refcount n p = some k → 0 < k) ∧
  (∀ n p, (s.dependents p).count n = if (s.refcount n p).isSome then 1 else 0)

/-- Agreement of two system states on the dependency-edge data
(`_arg_refcount` and `_dependents`). -/
def edgesEq (s s' : Sys) : Prop :=
  s'.refcount = s.refcount ∧ s'.dependents = s.dependents

/-- State after adding parent 1 to node 0's arguments once. -/
def c5s1 : Sys := sysOfStep (onArgAdd 4 freshSys 0 1)

/-- State after adding parent 1 to node 0's arguments a second time. -/
def c5s2 : Sys := sysOfStep (onArgAdd 4 c5s1 0 1)

/-- State after removing one occurrence of parent 1. -/
def c5s3 : Sys := sysOfStep (onArgRemove 4 c5s2 0 1)

/-- State after removing the second occurrence of parent 1. -/
def c5s4 : Sys := sysOfStep (onArgRemove 4 c5s3 0 1)

/-! ### The registry: `Node.__new__` and the `@nodeclass` decorator -/

/-- Errors arising during construction.  `typeErrorArity p g` is the Python
`TypeError` raised when a function of `p` parameters receives `g` positional
arguments; `sameKey` is the `SameKeyError` the source intends to raise for a
duplicate key of an exclusive class (never actually produced, see below). -/
inductive CErr
  | typeErrorArity (params given : Nat)
  | sameKey (existingCls newCls : Nat) (key : Nat × List Int)
deriving DecidableEq

/-- The global registry and per-instance construction bookkeeping:
`byKey` is `Node._by_key` (insertion order), `classOf` records each
instance's class, `nextId` allocates fresh instance identities, `initRun`
is each instance's `_init_run_for_class` set, and `initCount` counts how
many times a class' `__init__` body actually ran on an instance. -/
structure Reg where
  byKey : List ((Nat × List Int) × Nat)
  classOf : Nat → Nat
  nextId : Nat
  initRun : Nat → List Nat
  initCount : Nat → Nat → Nat

/-- The empty registry at interpreter start. -/
def reg0 : Reg :=
  { byKey := [], classOf := fun _ => 0, nextId := 0
  , initRun := fun _ => [], initCount := fun _ _ => 0 }

/-- `Node.key` (node.py lines 158–181): the key combines the class with the
structurally compared constructor arguments. -/
def defaultKey (cls : Nat) (args : List Int) : Nat × List Int := (cls, args)

/-- Lookup in `Node._by_key`. -/
def lookupKey : List ((Nat × List Int) × Nat) → (Nat × List Int) → Option Nat
  | [], _ => none
  | (k, v) :: rest, key => if k = key then some v else lookupKey rest key

/-- `Node.__new__` (node.py lines 107–118): compute the key; on a miss,
allocate a fresh instance, register it, and run `_init`; on a hit with
`same_key_error` set on the existing instance's class, raise — but the
`raise SameKeyError(key, existing.__class__, new_class)` itself fails with
`TypeError`, because `SameKeyError.__init__` (node.py line 350) is declared
as `def __init__(key_data, existing_class, new_class)` without `self`, so
the call passes 4 positional arguments to a 3-parameter function (it would
also crash on the nonexistent `new_class._key_space`); on a hit without
`same_key_error`, return the existing instance. -/
def nodeNew (sameKeyErr : Nat → Bool) (r : Reg) (cls : Nat) (args : List Int) :
    Except (CErr × Reg) (Nat × Reg) :=
  let key := defaultKey cls args
  match lookupKey r.byKey key with
  | none =>
    let inst := r.nextId
    .ok (inst, { r with byKey := r.byKey ++ [(key, inst)]
                      , classOf := upd r.classOf inst cls
                      , nextId := r.nextId + 1 })
  | some existing =>
    if sameKeyErr (r.classOf existing) then .error (CErr.typeErrorArity 3 4, r)
    else .ok (existing, r)

/-- A full `Node(...)` construction: `__new__` followed by the
`init_wrapper` installed by `@nodeclass` (node.py lines 30–39), which runs
the class' `__init__` body only if this class is not yet recorded in the
instance's `_init_run_for_class`. -/
def construct (sameKeyErr : Nat → Bool) (r : Reg) (cls : Nat) (args : List Int) :
    Except (CErr × Reg) (Nat × Reg) :=
  match nodeNew sameKeyErr r cls args with
  | .error e => .error e
  | .ok (inst, r1) =>
    if cls ∈ r1.initRun inst then .ok (inst, r1)
    else .ok (inst, { r1 with initRun := upd r1.initRun inst (cls :: r1.initRun inst)
                            , initCount := upd2 r1.initCount inst cls (r1.initCount inst cls + 1) })

/-- Registry reached by a construction run. -/
def regOf (r : Except (CErr × Reg) (Nat × Reg)) : Reg :=
  match r with
  | .ok (_, rg) => rg
  | .error (_, rg) => rg

/-- A class-kind table marking every class exclusive
(`same_key_error=True`). -/
def cfgExcl : Nat → Bool := fun _ => true

/-- Registry after constructing the first instance of exclusive class 5. -/
def c6r1 : Reg := regOf (construct cfgExcl reg0 5 [7])

/-! ### `ObservableList` (`_collections.py`) -/

/-- Exceptions of the list model: `stepZero` is the `ValueError` for a zero
slice step, `lengthMismatch` the `ValueError` for an extended-slice
assignment of the wrong length, `indexError` a Python `IndexError`. -/
inductive PyExc
  | stepZero
  | lengthMismatch
  | indexError
deriving DecidableEq

/-- A Python `slice(start, stop, step)` with open-ended components. -/
structure PySlice where
  start : Option Int
  stop : Option Int
  step : Option Int
deriving DecidableEq

/-- `ObservableList.Mutation` (index, removed elements, added elements). -/
structure LMut where
  index : Int
  removed : List Int
  added : List Int
deriving DecidableEq

/-- An `ObservableList`: its backing `_data` plus the log of mutations
delivered, in order, to its listeners. -/
structure OList where
  data : List Int
  log : List LMut
deriving DecidableEq

/-- `_is_extended_slice` (_collections.py lines 160–163). -/
def isExtended (sl : PySlice) : Bool :=
  match sl.step with
  | none => false
  | some k => k != 1

/-- Python `start or 0` as used in `__setitem__`'s notification. -/
def pyOr (i : Option Int) (d : Int) : Int :=
  match i with
  | none => d
  | some x => if x = 0 then d else x

/-- `ObservableList._index_normalize` (_collections.py lines 56–63), exactly
as written: a negative `i` is mapped to `len(self) - i`. -/
def index_normalize (len : Int) : Option Int → Option Int
  | none => none
  | some i => if 0 ≤ i then some i else some (len - i)

/-- `ObservableList._slice_lower` (_collections.py lines 100–104). -/
def slice_lower (len : Int) (i : Option Int) (endOffset : Int) : Int :=
  match i with
  | none => 0 + endOffset
  | some i => min i (len + endOffset)

/-- `ObservableList._slice_upper` (_collections.py lines 106–110). -/
def slice_upper (len : Int) (i : Option Int) (endOffset : Int) : Int :=
  match i with
  | none => len + endOffset
  | some i => min i (len + endOffset)

/-- The index-collecting while loop of `_slice_indices`: ascending while
`index < j` for positive step, descending while `index > j` for negative
step.  The fuel passed by callers strictly exceeds the iteration count. -/
def sliceWalk : Nat → Int → Int → Int → List Int
  | 0, _, _, _ => []
  | fuel + 1, i, j, k =>
    if 0 < k then (if i < j then i :: sliceWalk fuel (i + k) j k else [])
    else (if j < i then i :: sliceWalk fuel (i + k) j k else [])

/-- `ObservableList._slice_indices` (_collections.py lines 65–98). -/
def slice_indices (len : Int) (sl : PySlice) : Except PyExc (List Int) :=
  if sl.step = some 0 then .error .stepZero
  else
    let k := sl.step.getD 1
    let i0 := index_normalize len sl.start
    let j0 := index_normalize len sl.stop
    let i := if 0 < k then slice_lower len i0 0 else slice_upper len i0 (-1)
    let j := if 0 < k then slice_upper len j0 0 else slice_lower len j0 (-1)
    .ok (sliceWalk ((j - i).natAbs + 1) i j k)

/-- Reading `data[i]` with Python's negative-index convention. -/
def pyGet (data : List Int) (i : Int) : Except PyExc Int :=
  let j := if i < 0 then i + (data.length : Int) else i
  if 0 ≤ j then
    match data[j.toNat]? with
    | some v => .ok v
    | none => .error .indexError
  else .error .indexError

/-- Writing `data[i] = v` with Python's negative-index convention. -/
def pySet (data : List Int) (i : Int) (v : Int) : Except PyExc (List Int) :=
  let j := if i < 0 then i + (data.length : Int) else i
  if 0 ≤ j ∧ j < (data.length : Int) then .ok (data.set j.toNat v)
  else .error .indexError

/-- The integer branch of `ObservableList.__setitem__` (_collections.py
lines 127–134): normalize a negative key once, read the old value, store
the new one, notify with removed `[old]` and added `[value]`. -/
def setitemInt (l : OList) (key : Int) (v : Int) : Except PyExc OList :=
  let key := if key < 0 then (l.data.length : Int) + key else key
  match pyGet l.data key with
  | .error e => .error e
  | .ok old =>
    match pySet l.data key v with
    | .error e => .error e
    | .ok d => .ok ⟨d, l.log ++ [⟨key, [old], [v]⟩]⟩

/-- The `for index, element in zip(indices, added)` loop of the extended
branch of `__setitem__`, each iteration a single-index assignment. -/
def setitemAt : OList → List (Int × Int) → Except PyExc OList
  | l, [] => .ok l
  | l, (i, v) :: rest =>
    match setitemInt l i v with
    | .ok l' => setitemAt l' rest
    | .error e => .error e

/-- Clamped bound of a unit-step Python slice (the backing `_data` is a
plain Python list, so non-extended slicing uses Python's own semantics). -/
def unitLo (len : Int) : Option Int → Int
  | none => 0
  | some i => if i < 0 then max (i + len) 0 else min i len

/-- `data[start:stop]` for a unit-step slice. -/
def unitSlice (data : List Int) (start stop : Option Int) : List Int :=
  let lo := unitLo (data.length : Int) start
  let hi := unitLo (data.length : Int) stop
  (data.drop lo.toNat).take (hi - lo).toNat

/-- `data[start:stop] = repl` for a unit-step slice. -/
def unitSplice (data : List Int) (start stop : Option Int) (repl : List Int) : List Int :=
  let lo := unitLo (data.length : Int) start
  let hi := max lo (unitLo (data.length : Int) stop)
  data.take lo.toNat ++ repl ++ data.drop hi.toNat

/-- `ObservableList.__setitem__` on a slice key (_collections.py lines
112–126): non-extended slices splice directly and notify once with
`key.start or 0`; extended slices compute `_slice_indices`, validate the
replacement length, and assign index by index. -/
def setitemSlice (l : OList) (sl : PySlice) (value : List Int) : Except PyExc OList :=
  let added := value
  if isExtended sl then
    match slice_indices (l.data.length : Int) sl with
    | .error e => .error e
    | .ok indices =>
      if indices.length ≠ added.length then .error .lengthMismatch
      else setitemAt l (indices.zip added)
  else
    .ok ⟨unitSplice l.data sl.start sl.stop added
        , l.log ++ [⟨pyOr sl.start 0, unitSlice l.data sl.start sl.stop, added⟩]⟩

/-- The integer branch of `ObservableList.__delitem__` (_collections.py
lines 150–151), exactly as written: `self[key:key] = []`. -/
def delitemInt (l : OList) (key : Int) : Except PyExc OList :=
  setitemSlice l ⟨some key, some key, none⟩ []

/-- The per-index deletion loop of the extended branch of `__delitem__`. -/
def delitemAt : OList → List Int → Except PyExc OList
  | l, [] => .ok l
  | l, i :: rest =>
    match delitemInt l i with
    | .ok l' => delitemAt l' rest
    | .error e => .error e

/-- `ObservableList.__delitem__` on a slice key (_collections.py lines
136–149): non-extended slices assign `[]`; extended slices delete each
index, in descending order when the step is positive. -/
def delitemSlice (l : OList) (sl : PySlice) : Except PyExc OList :=
  if isExtended sl then
    match slice_indices (l.data.length : Int) sl with
    | .error e => .error e
    | .ok indices =>
      delitemAt l (if 0 < sl.step.getD 1 then indices.reverse else indices)
  else setitemSlice l sl []

/-- Reference definition following the specification's appeal to "the exact
index set Python-style slicing would touch": CPython's slice-index
normalization (`PySlice_AdjustIndices`), for comparison with
`slice_indices`. -/
def pySliceIndices (len : Int) (sl : PySlice) : Except PyExc (List Int) :=
  if sl.step = some 0 then .error .stepZero
  else
    let k := sl.step.getD 1
    let adjust : Option Int → Int := fun oi =>
      match oi with
      | none => if 0 < k then 0 else len - 1
      | some i =>
        let i := if i < 0 then i + len else i
        if i < 0 then (if k < 0 then -1 else 0)
        else if len ≤ i then (if k < 0 then len - 1 else len)
        else i
    let start := adjust sl.start
    let stop :=
      match sl.stop with
      | none => if 0 < k then len else -1
      | some _ => adjust sl.stop
    .ok (sliceWalk ((stop - start).natAbs + 1) start stop k)

/-- Backing data reached by a list-operation run (`[]` on error). -/
def olDataOf (r : Except PyExc OList) : List Int :=
  match r with
  | .ok l => l.data
  | .error _ => []

/-- The observable list `[0, 1, 2, 3, 4]` with an empty mutation log. -/
def l5 : OList := ⟨[0, 1, 2, 3, 4], []⟩


/-! ### Helper lemmas: `invalidate` never touches the dependency edges -/

/-- Transitivity of `edgesEq`. -/
theorem edgesEq_trans {s t u : Sys} (h1 : edgesEq s t) (h2 : edgesEq t u) : edgesEq s u :=
  ⟨h2.1.trans h1.1, h2.2.trans h1.2⟩

/-- `NodeCallStack._push` changes no node attributes. -/
theorem push_edges (s : Sys) (n : NodeId) : edgesEq s (sysOfStep (push s n)) := by
  simp only [push]
  split <;> exact ⟨rfl, rfl⟩

/-- `NodeCallStack._pop` changes no node attributes. -/
theorem pop_edges (s : Sys) (n : NodeId) : edgesEq s (sysOfStep (pop s n)) := by
  simp only [pop]
  split
  · exact ⟨rfl, rfl⟩
  · split <;> exact ⟨rfl, rfl⟩

/-- The `state` setter changes no dependency edges. -/
theorem setState_edges (s : Sys) (n : NodeId) (st' : State) : edgesEq s (setState s n st') :=
  ⟨rfl, rfl⟩

/-- Transport of an `edgesEq` fact along a successful step. -/
theorem edges_of_ok {s t : Sys} {r : Except (Err × Sys) Sys}
    (he : edgesEq s (sysOfStep r)) (h : r = .ok t) : edgesEq s t := by
  rw [h] at he
  exact he

/-- Transport of an `edgesEq` fact along a failing step. -/
theorem edges_of_error {s t : Sys} {e : Err} {r : Except (Err × Sys) Sys}
    (he : edgesEq s (sysOfStep r)) (h : r = .error (e, t)) : edgesEq s t := by
  rw [h] at he
  exact he

/-- `Node.invalidate` (and its dependents loop) only changes states, the
stack and the event log — never `_arg_refcount` or `_dependents`. -/
theorem invalidate_edges : ∀ fuel : Nat,
    (∀ s n, edgesEq s (sysOfStep (invalidate fuel s n))) ∧
    (∀ s ds, edgesEq s (sysOfStep (invalidateAll fuel s ds))) := by
  intro fuel
  induction fuel with
  | zero => exact ⟨fun s n => ⟨rfl, rfl⟩, fun s ds => ⟨rfl, rfl⟩⟩
  | succ fuel ih =>
    obtain ⟨ihI, ihA⟩ := ih
    constructor
    · intro s n
      simp only [invalidate]
      split
      · split
        next es heq =>
          have h1 := push_edges s n
          rw [heq] at h1
          exact h1
        next s1 heq =>
          have h2 : edgesEq s (setState s1 n State.invalid) :=
            edgesEq_trans (edges_of_ok (push_edges s n) heq) (setState_edges s1 n _)
          split
          next s3 heq2 =>
            exact edgesEq_trans
              (edgesEq_trans h2 (edges_of_ok (ihA _ _) heq2)) (pop_edges s3 n)
          next e s3 heq2 =>
            have h3 : edgesEq s s3 :=
              edgesEq_trans h2 (edges_of_error (ihA _ _) heq2)
            split
            next s4 heq3 =>
              exact edgesEq_trans h3 (edges_of_ok (pop_edges s3 n) heq3)
            next es heq3 =>
              have h4 := pop_edges s3 n
              rw [heq3] at h4
              exact edgesEq_trans h3 h4
      · exact ⟨rfl, rfl⟩
    · intro s ds
      match ds with
      | [] => exact ⟨rfl, rfl⟩
      | d :: ds =>
        simp only [invalidateAll]
        split
        next s1 heq =>
          exact edgesEq_trans (edges_of_ok (ihI s d) heq) (ihA s1 ds)
        next es heq =>
          have h1 := ihI s d
          rw [heq] at h1
          exact h1

/-- Successful invalidation preserves the dependency edges. -/
theorem invalidate_ok_edges {fuel : Nat} {s : Sys} {n : NodeId} {s1 : Sys}
    (h : invalidate fuel s n = .ok s1) : edgesEq s s1 :=
  edges_of_ok ((invalidate_edges fuel).1 s n) h

/-- `RefInv` only depends on the dependency-edge data. -/
theorem refinv_of_edgesEq {s t : Sys} (he : edgesEq s t) (h : RefInv s) : RefInv t := by
  obtain ⟨h1, h2⟩ := he
  constructor
  · intro n p k hk
    rw [h1] at hk
    exact h.1 n p k hk
  · intro n p
    rw [h1, h2]
    exact h.2 n p

/-- `Node._on_arg_add` preserves the refcounting invariant. -/
theorem onArgAdd_refinv {fuel : Nat} {s : Sys} {n arg : NodeId} {s' : Sys}
    (hinv : RefInv s) (h : onArgAdd fuel s n arg = .ok s') : RefInv s' := by
  unfold onArgAdd at h
  split at h
  next es heq => exact Except.noConfusion h
  next s1 heq =>
    have hinv1 : RefInv s1 := refinv_of_edgesEq (invalidate_ok_edges heq) hinv
    split at h
    next k hr =>
      simp only [Except.ok.injEq] at h
      subst h
      constructor
      · intro m p j hj
        simp only [upd2] at hj
        split at hj
        next hc =>
          simp only [Option.some.injEq] at hj
          have hk := hinv1.1 n arg k hr
          omega
        next hc => exact hinv1.1 m p j hj
      · intro m p
        simp only [upd2]
        split
        next hc =>
          obtain ⟨hm, hp⟩ := hc
          subst hm
          subst hp
          have h2 := hinv1.2 m p
          rw [hr] at h2
          simpa using h2
        next hc => simpa using hinv1.2 m p
    next hr =>
      simp only [Except.ok.injEq] at h
      subst h
      constructor
      · intro m p j hj
        simp only [upd2] at hj
        split at hj
        next hc =>
          simp only [Option.some.injEq] at hj
          omega
        next hc => exact hinv1.1 m p j hj
      · intro m p
        simp only [upd, upd2]
        by_cases hp : p = arg
        · subst hp
          by_cases hm : m = n
          · subst hm
            have h2 := hinv1.2 m p
            rw [hr] at h2
            simp only [Option.isSome_none, Bool.false_eq_true, if_false] at h2
            simp [List.count_append, h2]
          · have h2 := hinv1.2 m p
            have hc : ¬(m = n ∧ p = p) := fun hc => hm hc.1
            simp [hc, List.count_append, hm, h2]
        · have h2 := hinv1.2 m p
          have hc : ¬(m = n ∧ p = arg) := fun hc => hp hc.2
          simp [hc, hp, h2]

/-- `Node._on_arg_remove` preserves the refcounting invariant. -/
theorem onArgRemove_refinv {fuel : Nat} {s : Sys} {n arg : NodeId} {s' : Sys}
    (hinv : RefInv s) (h : onArgRemove fuel s n arg = .ok s') : RefInv s' := by
  unfold onArgRemove at h
  split at h
  next es heq => exact Except.noConfusion h
  next s1 heq =>
    have hinv1 : RefInv s1 := refinv_of_edgesEq (invalidate_ok_edges heq) hinv
    split at h
    next hr => exact Except.noConfusion h
    next k hr =>
      by_cases hk : k - 1 = 0
      · rw [if_pos hk] at h
        simp only [] at h
        split at h
        next hmem =>
          simp only [Except.ok.injEq] at h
          subst h
          constructor
          · intro m p j hj
            simp only [upd2] at hj
            split at hj
            next hc => exact Option.noConfusion hj
            next hc => exact hinv1.1 m p j hj
          · intro m p
            simp only [upd, upd2]
            by_cases hp : p = arg
            · subst hp
              by_cases hm : m = n
              · subst hm
                have h2 := hinv1.2 m p
                rw [hr] at h2
                simp only [Option.isSome_some, if_true] at h2
                have hc : (m = m ∧ p = p) := ⟨rfl, rfl⟩
                simp [hc, List.count_erase_self, h2]
              · have h2 := hinv1.2 m p
                have hc : ¬(m = n ∧ p = p) := fun hc => hm hc.1
                simp [hc, hm, List.count_erase_of_ne hm, h2]
            · have h2 := hinv1.2 m p
              have hc : ¬(m = n ∧ p = arg) := fun hc => hp hc.2
              simp [hc, hp, h2]
        next hmem => exact Except.noConfusion h
      · rw [if_neg hk] at h
        simp only [Except.ok.injEq] at h
        subst h
        constructor
        · intro m p j hj
          simp only [upd2] at hj
          split at hj
          next hc =>
            simp only [Option.some.injEq] at hj
            have hkpos := hinv1.1 n arg k hr
            omega
          next hc => exact hinv1.1 m p j hj
        · intro m p
          simp only [upd2]
          split
          next hc =>
            obtain ⟨hm, hp⟩ := hc
            subst hm
            subst hp
            have h2 := hinv1.2 m p
            rw [hr] at h2
            simpa using h2
          next hc => simpa using hinv1.2 m p

/-! ### The claims -/

/-- C1: for the chain A(=0) → B(=1) → C(=2) with all three nodes `VALID`
(arbitrary compute functions and cached values), `invalidate(C)` leaves A,
B and C all `INVALID`, and a subsequent read of A's value recomputes C,
then B, then A exactly once each (the `computed` markers of the run are
exactly `[2, 1, 0]`), returning the freshly computed value. -/
theorem invalidation_cascade_recomputes_once (f g : Val → Val) (c va vb vc : Val) :
    ∃ s', invalidate 8 (chainSys va vb vc) 2 = .ok s' ∧
      s'.st 0 = State.invalid ∧ s'.st 1 = State.invalid ∧ s'.st 2 = State.invalid ∧
      ∃ v s'', getValue (chainEnv f g c) 8 s' 0 = .ok (v, s'') ∧
        v = f (g c) ∧ computedEvents s''.events = [2, 1, 0] := by
  refine ⟨sysOfStep (invalidate 8 (chainSys va vb vc) 2), rfl, rfl, rfl, rfl, ?_⟩
  by_cases h1 : vc = c <;> by_cases h2 : vb = g c <;> by_cases h3 : va = f (g c) <;>
    simp [getValue, readAll, setValue, invalidate, invalidateAll, push, pop, setState,
      logComputed, upd, chainEnv, chainSys, sysOfStep, h1, h2, h3] <;>
    exact ⟨_, _, ⟨rfl, rfl⟩, rfl, rfl⟩

/-- C2: constructing a node of a memoizing class (`same_key_error=False`)
twice with structurally equal constructor arguments returns the same
instance both times, and the class' `__init__` body runs exactly once. -/
theorem memoized_construct_identity_init_once (cfg : Nat → Bool) (cls : Nat) (args : List Int)
    (h : cfg cls = false) :
    ∃ r1 r2,
      construct cfg reg0 cls args = .ok (0, r1) ∧
      construct cfg r1 cls args = .ok (0, r2) ∧
      r1.initCount 0 cls = 1 ∧ r2.initCount 0 cls = 1 ∧ r2 = r1 := by
  refine ⟨regOf (construct cfg reg0 cls args), regOf (construct cfg reg0 cls args),
    rfl, ?_, ?_, ?_, rfl⟩ <;>
    simp [construct, nodeNew, defaultKey, lookupKey, reg0, regOf, upd, upd2, h]

/-- C2 witness: the memoization theorem applied to class 1 with arguments
`[2, 3]` in a configuration where every class is memoizing. -/
theorem memoized_construct_identity_init_once_witness :
    (fun _ => false : Nat → Bool) 1 = false ∧
    ∃ r1 r2,
      construct (fun _ => false) reg0 1 [2, 3] = .ok (0, r1) ∧
      construct (fun _ => false) r1 1 [2, 3] = .ok (0, r2) ∧
      r1.initCount 0 1 = 1 ∧ r2.initCount 0 1 = 1 ∧ r2 = r1 :=
  ⟨rfl, memoized_construct_identity_init_once (fun _ => false) 1 [2, 3] rfl⟩

/-- C3 counterexample: node 0 is `INVALID` with cached value `5`; assigning
`5` through the `value` setter is a complete no-op, so the state stays
`INVALID` — it does not become `VALID` as the claim asserts. -/
theorem equal_assignment_state_cex :
    setValue 8 (c3sys (some 5)) 0 (some 5) = .ok (c3sys (some 5)) ∧
    (c3sys (some 5)).st 0 = State.invalid ∧
    (c3sys (some 5)).st 0 ≠ State.valid := by
  refine ⟨?_, rfl, by decide⟩
  simp [setValue, c3sys, freshSys, upd]

/-- C3 amended: when an assignment's value equals the cached `_value` the
setter returns immediately, firing no value-changed event and leaving the
entire state (including the node's lifecycle state) unchanged; in
particular a recomputation that reproduces the stale cached value leaves
the node `PENDING`, not `VALID`. -/
theorem equal_value_short_circuit :
    (∀ fuel s n v, s.val n = v → setValue fuel s n v = .ok s) ∧
    (∀ c : Val, getValue (c3env c) 8 (c3sys c) 0 = .ok (c, c3res c) ∧
      (c3res c).st 0 = State.pending ∧ valueEvents (c3res c).events = []) := by
  constructor
  · intro fuel s n v h
    simp [setValue, h]
  · intro c
    refine ⟨?_, ?_, ?_⟩ <;>
      simp [getValue, readAll, setValue, c3env, c3sys, c3res, freshSys, push, pop,
        setState, logComputed, upd, sysOfRun, valueEvents]

/-- C3 witness: the short-circuit lemma applied to node 0 caching `5`. -/
theorem equal_value_short_circuit_witness :
    (c3sys (some 5)).val 0 = some 5 ∧
    setValue 8 (c3sys (some 5)) 0 (some 5) = .ok (c3sys (some 5)) :=
  ⟨rfl, equal_value_short_circuit.1 8 (c3sys (some 5)) 0 (some 5) rfl⟩

/-- C4 counterexample: evaluating node 0, whose computation reads node 0's
own value, fails with `DependencyCycleError` and the stack frame is popped
(the call stack is empty afterwards) — but node 0 is left `PENDING`,
contradicting the claim that its state is not left Pending. -/
theorem self_read_leaves_pending_cex :
    getValue cycEnv 8 freshSys 0 = .error (.depCycle [0, 0], cycRes) ∧
    cycRes.stack = [] ∧ cycRes.st 0 = State.pending :=
  ⟨rfl, rfl, rfl⟩

/-- C4 amended: for every compute function that reads node 0's own value
(directly, or indirectly through node 1), evaluating node 0 fails with
`DependencyCycleError`, every stack frame pushed during the failed
evaluation is popped, and the nodes caught in the cycle are left
`PENDING`. -/
theorem self_read_fails_frames_popped_state_pending :
    (∀ f, getValue (selfEnv f) 8 freshSys 0 = .error (.depCycle [0, 0], c4res f) ∧
      (c4res f).stack = [] ∧ (c4res f).st 0 = State.pending) ∧
    (∀ f g, getValue (viaEnv f g) 8 freshSys 0 = .error (.depCycle [0, 1, 0], c4resVia f g) ∧
      (c4resVia f g).stack = [] ∧ (c4resVia f g).st 0 = State.pending ∧
      (c4resVia f g).st 1 = State.pending) :=
  ⟨fun _ => ⟨rfl, rfl, rfl⟩, fun _ _ => ⟨rfl, rfl, rfl, rfl⟩⟩

/-- C5: the refcounting invariant (all `_arg_refcount` entries positive,
a dependent edge existing exactly when a positive refcount entry exists,
each dependent recorded once) holds for fresh nodes and is preserved by
`_on_arg_add` and `_on_arg_remove`; and in the concrete double-argument
scenario — parent 1 added twice to node 0 — the parent's dependents hold
node 0 exactly once, removing one occurrence keeps the edge (refcount 1),
and removing both deletes the entry and the edge. -/
theorem refcount_dependent_edge_invariant :
    RefInv freshSys ∧
    (∀ fuel s n arg s', RefInv s → onArgAdd fuel s n arg = .ok s' → RefInv s') ∧
    (∀ fuel s n arg s', RefInv s → onArgRemove fuel s n arg = .ok s' → RefInv s') ∧
    onArgAdd 4 freshSys 0 1 = .ok c5s1 ∧ onArgAdd 4 c5s1 0 1 = .ok c5s2 ∧
    c5s2.refcount 0 1 = some 2 ∧ (c5s2.dependents 1).count 0 = 1 ∧
    onArgRemove 4 c5s2 0 1 = .ok c5s3 ∧ c5s3.refcount 0 1 = some 1 ∧
    (c5s3.dependents 1).count 0 = 1 ∧
    onArgRemove 4 c5s3 0 1 = .ok c5s4 ∧ c5s4.refcount 0 1 = none ∧
    0 ∉ c5s4.dependents 1 := by
  refine ⟨?_, ?_, ?_, rfl, rfl, rfl, by decide, rfl, rfl, by decide, rfl, rfl, by decide⟩
  · constructor
    · intro n p k hk
      exact Option.noConfusion hk
    · intro n p
      simp [freshSys]
  · intro fuel s n arg s' hinv h
    exact onArgAdd_refinv hinv h
  · intro fuel s n arg s' hinv h
    exact onArgRemove_refinv hinv h

/-- C5 witness: the preservation clauses applied along the concrete
double-add run starting from fresh nodes. -/
theorem refcount_dependent_edge_invariant_witness :
    RefInv c5s1 ∧ RefInv c5s2 :=
  have h0 : RefInv freshSys := refcount_dependent_edge_invariant.1
  have h1 : RefInv c5s1 :=
    refcount_dependent_edge_invariant.2.1 4 freshSys 0 1 c5s1 h0 rfl
  ⟨h1, refcount_dependent_edge_invariant.2.1 4 c5s1 0 1 c5s2 h1 rfl⟩

/-- C6: constructing a second node of exclusive class 5 with an equal key
does fail and leaves the first instance untouched — but the error raised is
the `TypeError` from `SameKeyError.__init__`'s missing `self` parameter
(4 positional arguments passed to 3 parameters), not a `SameKeyError`
identifying the conflicting kinds and key. -/
theorem duplicate_key_raises_type_error :
    construct cfgExcl reg0 5 [7] = .ok (0, c6r1) ∧
    construct cfgExcl c6r1 5 [7] = .error (CErr.typeErrorArity 3 4, c6r1) ∧
    lookupKey c6r1.byKey (5, [7]) = some 0 ∧ c6r1.classOf 0 = 5 ∧
    c6r1.initCount 0 5 = 1 ∧
    (∀ a b key, CErr.typeErrorArity 3 4 ≠ CErr.sameKey a b key) :=
  ⟨rfl, rfl, rfl, rfl, rfl, fun _ _ _ h => by cases h⟩

/-- C7: `_index_normalize` maps the negative index `-2` of a length-5 list
to `7` (it computes `len - i` instead of `len + i`), so the extended slice
`[-2::2]` yields the empty index sequence while Python-style slicing
touches exactly index 3; the replacement-length validation itself is in
place (assigning 2 elements to the 3-index slice `[0:5:2]` fails). -/
theorem slice_indices_negative_mismatch :
    index_normalize 5 (some (-2)) = some 7 ∧
    slice_indices 5 ⟨some (-2), none, some 2⟩ = .ok [] ∧
    pySliceIndices 5 ⟨some (-2), none, some 2⟩ = .ok [3] ∧
    ([] : List Int) ≠ [3] ∧
    setitemSlice l5 ⟨some 0, some 5, some 2⟩ [9, 9] = .error .lengthMismatch := by
  refine ⟨by decide, rfl, rfl, by decide, rfl⟩

/-- C8: on `[0,1,2,3,4]`, the extended-slice assignment `lst[1:4:2] =
[10,20]` does produce `[0,10,2,20,4]` with mutations removing `1` then `3`
and adding `10` then `20`; but `del lst[::2]` leaves the list completely
unchanged (integer deletion performs `self[k:k] = []`, which removes
nothing and fires empty mutations), instead of yielding `[1,3]`. -/
theorem slice_assign_ok_slice_delete_noop :
    setitemSlice l5 ⟨some 1, some 4, some 2⟩ [10, 20]
      = .ok ⟨[0, 10, 2, 20, 4], [⟨1, [1], [10]⟩, ⟨3, [3], [20]⟩]⟩ ∧
    delitemSlice l5 ⟨none, none, some 2⟩
      = .ok ⟨[0, 1, 2, 3, 4], [⟨4, [], []⟩, ⟨2, [], []⟩, ⟨0, [], []⟩]⟩ ∧
    olDataOf (delitemSlice l5 ⟨none, none, some 2⟩) ≠ [1, 3] := by
  refine ⟨rfl, rfl, by decide⟩

/-- C9 counterexample: when node 0's computation reads node 0 directly,
the `DependencyCycleError` trace is `[0, 0]` (the stack contents plus the
node whose push failed), not `[0]` as the claim states. -/
theorem direct_cycle_trace_cex :
    traceOfRun (getValue cycEnv 8 freshSys 0) = [0, 0] ∧
    traceOfRun (getValue cycEnv 8 freshSys 0) ≠ [0] :=
  ⟨rfl, by decide⟩

/-- C9 amended: the cycle trace is the call stack plus the node being
pushed — `[A, A]` for a node reading itself directly and `[A, B, A]` for a
cycle through an intermediary B, for every compute function. -/
theorem cycle_trace_contents :
    (∀ f, traceOfRun (getValue (selfEnv f) 8 freshSys 0) = [0, 0]) ∧
    (∀ f g, traceOfRun (getValue (viaEnv f g) 8 freshSys 0) = [0, 1, 0]) :=
  ⟨fun _ => rfl, fun _ _ => rfl⟩

/-- C10: a freshly created node (state `INVALID`, cached value `None`)
silently absorbs an assignment of `None`: the setter's equality
short-circuit returns the state completely unchanged — same `INVALID`
state, same `None` cache, no events — regardless of the node's state. -/
theorem fresh_none_assignment_noop (s : Sys) (n : NodeId) (fuel : Nat) :
    (initNode s n).st n = State.invalid ∧ (initNode s n).val n = none ∧
    setValue fuel (initNode s n) n none = .ok (initNode s n) := by
  refine ⟨?_, ?_, ?_⟩ <;> simp [initNode, setValue, upd]

end Lameflow
